import Mathlib

/-!
Verification of the holopy propagation core (`holopy/propagation/propagate.py`).

The Python module is written with `from __future__ import division`, so `/` is
always true division; quantities that the code keeps as Python ints (shape
dimensions, the truncated support bound `int(...)+1`) are modelled as `ℤ`/`ℕ`,
and all true-division arithmetic is modelled over `ℚ`.  The complex-valued
kernel entries involve `exp` and `sqrt` and are modelled over `ℂ`; everything
that the source computes with exact integer/rational arithmetic (array shapes,
grid coordinates, the `root` quantity, slice bounds, the distance-packaging
decision) is kept computable so that concrete instances evaluate by `decide`.

Arrays are modelled as total functions from index triples `(i, j, t)` (the two
spatial axes and the distance axis) together with separately-computed shape
data; theorems about array contents quantify only over in-range indices.
-/

namespace Holopy

/-- Python `int(x)` on a real quantity: truncation toward zero. -/
def ratTrunc (q : ℚ) : ℤ :=
  if 0 ≤ q then ⌊q⌋ else ⌈q⌉

/-- `np.max` over a nonempty list of rationals (the per-distance support bounds);
on `[]` the source raises, so the value at `[]` is irrelevant to any claim. -/
def qmax (l : List ℚ) : ℚ :=
  l.foldl max (l.headD 0)

/-- The condition under which `int(np.max(xdim**2*dx**2/np.abs(d)/wavelen/2))`
raises `OverflowError` in the source: a float division by zero produces `inf`
(division by `|d| = 0` or by `wavelen = 0`), and `int(inf)` overflows.  The
`try/except` in `trans_func` catches exactly this and falls back to half the
image size. -/
def supportOverflow (wavelen : ℚ) (ds : List ℚ) : Prop :=
  wavelen = 0 ∨ ∃ di ∈ ds, di = 0

instance (wavelen : ℚ) (ds : List ℚ) : Decidable (supportOverflow wavelen ds) := by
  unfold supportOverflow; infer_instance

/-- Lines 172-174 of the source: `if(cfsp > 0): cfsp = int(abs(cfsp)); d = d/cfsp`.
The distances are divided by the cascade factor before any further use. -/
def cascadeDistances (ds : List ℚ) (cfsp : ℤ) : List ℚ :=
  if 0 < cfsp then ds.map (fun di => di / (cfsp : ℚ)) else ds

/-- Lines 186-196 of the source, for one axis (`dim` = `xdim`, `sp` = `dx`, or
the `y` counterparts): the support half-width
`max_m = int(np.max(dim**2*sp**2/np.abs(d)/wavelen/2))+1`, with the
`OverflowError` fallback `max_m = dim/2`, followed by the clamp
`max_m = min(dim, max_m*2)/2` (true division, hence a rational). -/
def halfWidth (dim : ℤ) (sp wavelen : ℚ) (ds : List ℚ) : ℚ :=
  let h : ℚ :=
    if supportOverflow wavelen ds then (dim : ℚ) / 2
    else ((ratTrunc (qmax (ds.map
      (fun di => (dim : ℚ) ^ 2 * sp ^ 2 / |di| / wavelen / 2))) + 1 : ℤ) : ℚ)
  min (dim : ℚ) (h * 2) / 2

/-- Number of elements of `np.arange(-M, M)` (step 1): the ceiling of `2·M`,
clamped below at 0. -/
def gridCount (M : ℚ) : ℕ :=
  ⌈2 * M⌉.toNat

/-- The `i`-th element of `np.arange(-M, M)`: `-M + i`. -/
def gridCoord (M : ℚ) (i : ℕ) : ℚ :=
  -M + (i : ℚ)

/-- Spatial size of the kernel built by `trans_func` along one axis: the length
of `np.ogrid[-max_m:max_m]` after cascade division of the distances and the
half-width computation with clamp. -/
def trans_func_K (dim : ℤ) (sp wavelen : ℚ) (ds : List ℚ) (cfsp : ℤ) : ℕ :=
  gridCount (halfWidth dim sp wavelen (cascadeDistances ds cfsp))

/-- Line 201 of the source, at grid cell `(i, j)` (axis-0 coordinate
`m = gridCoord Mx i`, axis-1 coordinate `n = gridCoord My j`):
`root = 1 - (wavelen*n/(xdim*dx))**2 - (wavelen*m/(ydim*dy))**2`.
Note the source pairs `n` with `xdim*dx` and `m` with `ydim*dy`. -/
def gridRoot (xdim ydim : ℤ) (dx dy wavelen : ℚ) (Mx My : ℚ) (i j : ℕ) : ℚ :=
  1 - (wavelen * gridCoord My j / ((xdim : ℚ) * dx)) ^ 2
    - (wavelen * gridCoord Mx i / ((ydim : ℚ) * dy)) ^ 2

/-- The pre-mask `root` value of `trans_func` at grid cell `(i, j)` (the value
of line 201, before the in-place mask of line 203). -/
def trans_func_root (xdim ydim : ℤ) (dx dy wavelen : ℚ) (ds : List ℚ)
    (cfsp : ℤ) (i j : ℕ) : ℚ :=
  let dsC := cascadeDistances ds cfsp
  gridRoot xdim ydim dx dy wavelen
    (halfWidth xdim dx wavelen dsC) (halfWidth ydim dy wavelen dsC) i j

/-- `np.diff` on a list. -/
def np_diff : List ℚ → List ℚ
  | [] => []
  | [_] => []
  | a :: b :: rest => (b - a) :: np_diff (b :: rest)

/-- `np.allclose(a, l)` with a scalar first argument and numpy's default
tolerances `rtol = 1e-5`, `atol = 1e-8`: every element `b` of `l` satisfies
`|a - b| ≤ atol + rtol*|b|`. -/
def np_allclose (a : ℚ) (l : List ℚ) : Prop :=
  ∀ b ∈ l, |a - b| ≤ 1 / 100000000 + |b| / 100000

instance (a : ℚ) (l : List ℚ) : Decidable (np_allclose a l) := by
  unfold np_allclose; infer_instance

/-- The two result-packaging shapes of `propagate` for a 3-D result: a `Grid`
with a uniform third-axis spacing, or an `UnevenGrid` recording the literal
distance list as third-axis coordinates. -/
inductive PositionSpec where
  | grid : ℚ → ℚ → ℚ → PositionSpec
  | uneven : ℚ → ℚ → List ℚ → PositionSpec
  deriving DecidableEq

/-- Lines 90-98 of the source: `dd = np.diff(d)`; if `np.allclose(dd[0], dd)`
package as a `Grid` with third-axis spacing `dd[0]`, else as an `UnevenGrid`
whose third-axis coordinates are the literal distance list `d`. -/
def propagate_positions (s0 s1 : ℚ) (ds : List ℚ) : PositionSpec :=
  let dd := np_diff ds
  if np_allclose (dd.headD 0) dd then .grid s0 s1 (dd.headD 0)
  else .uneven s0 s1 ds

/-- Line 208 of the source, the per-cell propagation phase factor
`np.exp(-1j*2*np.pi*d/wavelen*np.sqrt(root))` for one distance `di` and one
(already masked, hence nonnegative-real) `root` value `r`. -/
noncomputable def phase (wavelen di : ℚ) (r : ℚ) : ℂ :=
  Complex.exp (-Complex.I * 2 * (Real.pi : ℂ) * (di : ℂ) / (wavelen : ℂ)
    * ((Real.sqrt (r : ℝ) : ℝ) : ℂ))

/-- The kernel entry of `trans_func` at grid cell `(i, j)` and distance slice
`t`, following lines 165-221 of the source:
the distances are divided by the cascade factor (line 174); `root` is computed
(line 201) and masked in place, `root *= (root >= 0)` (line 203; the numpy
comparison on a complex array with zero imaginary parts compares real parts);
`g = exp(-1j*2*pi*d/wavelen*sqrt(root))` (line 208); if `gradient_filter` is
truthy, the phase at `d + gradient_filter` is subtracted (line 211); then
`g = g*(root>=0)` (line 218) where `root` is the variable holding the
already-masked value; finally `g = g**cfsp` when `cfsp > 0` (line 221).
`squeeze` only removes a length-1 distance axis and does not change entries. -/
noncomputable def trans_func_val (xdim ydim : ℤ) (dx dy wavelen : ℚ)
    (ds : List ℚ) (cfsp : ℤ) (gradient_filter : ℚ) (i j t : ℕ) : ℂ :=
  let r0 := trans_func_root xdim ydim dx dy wavelen ds cfsp i j
  let r : ℚ := if 0 ≤ r0 then r0 else 0
  let di := (cascadeDistances ds cfsp).getD t 0
  let g0 := phase wavelen di r
  let g1 := if gradient_filter = 0 then g0
    else g0 - phase wavelen (di + gradient_filter) r
  let g2 := g1 * (if 0 ≤ r then 1 else 0)
  if 0 < cfsp then g2 ^ cfsp.natAbs else g2

/-- Lines 102-116 of the source.  `ft` has spatial shape `(m, n)` and `G` has
spatial shape `(Kx, Ky)`; `mm, nn = [dim/2 for dim in G.shape[:2]]` (true
division), slice indices are Python ints (floats are truncated by legacy
numpy).  The overlap region
`ft[(m/2-mm):(m/2+mm),(n/2-nn):(n/2+nn)] *= G[:(mm*2),:(nn*2)]`
is multiplied first; then the four border slices are assigned zero exactly as
written in the source — the first two slices use the axis-1 bounds `n/2∓nn` on
axis 0 (with slice end `n`), and the last two use the axis-0 bounds `m/2∓mm`
on axis 1 (with slice end `m`). -/
noncomputable def apply_trans_func (m n Kx Ky : ℕ)
    (ft G : ℕ → ℕ → ℕ → ℂ) (i j t : ℕ) : ℂ :=
  let mm : ℚ := (Kx : ℚ) / 2
  let nn : ℚ := (Ky : ℚ) / 2
  let a0 : ℤ := ratTrunc ((m : ℚ) / 2 - mm)
  let b0 : ℤ := ratTrunc ((m : ℚ) / 2 + mm)
  let a1 : ℤ := ratTrunc ((n : ℚ) / 2 - nn)
  let b1 : ℤ := ratTrunc ((n : ℚ) / 2 + nn)
  let v : ℂ :=
    if a0 ≤ (i : ℤ) ∧ (i : ℤ) < b0 ∧ a1 ≤ (j : ℤ) ∧ (j : ℤ) < b1 then
      ft i j t * G ((i : ℤ) - a0).toNat ((j : ℤ) - a1).toNat t
    else ft i j t
  if (i : ℤ) < ratTrunc ((n : ℚ) / 2 - nn)
      ∨ (ratTrunc ((n : ℚ) / 2 + nn) ≤ (i : ℤ) ∧ (i : ℤ) < (n : ℤ))
      ∨ (j : ℤ) < ratTrunc ((m : ℚ) / 2 - mm)
      ∨ (ratTrunc ((m : ℚ) / 2 + mm) ≤ (j : ℤ) ∧ (j : ℤ) < (m : ℤ)) then 0
  else v

/-- Lines 75-85 of the source, one entry of the reconstructed array (before
result packaging).  Modelled from the spec: the external collaborators `fft`
and `ifft` (from `holopy.core.math`, not part of this repository snapshot) are
opaque transforms over 2-D arrays, applied independently per distance slice;
the spec's FFT contract makes `ifft` the exact algebraic inverse of `fft`.
`propagate` builds the kernel with `squeeze=False`, forward-transforms the
field, repeats the spectrum across the kernel's distance axis (line 81),
applies `apply_trans_func`, and inverse-transforms each distance slice. -/
noncomputable def propagate_val
    (fft ifft : (ℕ → ℕ → ℂ) → ℕ → ℕ → ℂ) (m n : ℕ) (field : ℕ → ℕ → ℂ)
    (dx dy wavelen : ℚ) (ds : List ℚ) (gradient_filter : ℚ)
    (i j t : ℕ) : ℂ :=
  let G := trans_func_val (m : ℤ) (n : ℤ) dx dy wavelen ds 0 gradient_filter
  let Kx := trans_func_K (m : ℤ) dx wavelen ds 0
  let Ky := trans_func_K (n : ℤ) dy wavelen ds 0
  let ft : ℕ → ℕ → ℕ → ℂ := fun a b _ => fft field a b
  let filtered := apply_trans_func m n Kx Ky ft G
  ifft (fun a b => filtered a b t) i j

/-- Lines 256-276 of the source: the impulse-response kernel entry at index
`(i, j)` of the `(xdim, ydim)`-shaped output and distance slice `t`.
`max_m = xdim/2`, `max_n = ydim/2` (true division), the coordinate grids are
`np.ogrid[-max_m:max_m, -max_n:max_n]`,
`root = sqrt(d**2 + (m*dx)**2 + (n*dy)**2)` and the value is
`1j/wavelen * exp(-1j*wavevec*root)/root`. -/
noncomputable def impulse_response (xdim ydim : ℤ) (dx dy wavelen wavevec : ℚ)
    (ds : List ℚ) (i j t : ℕ) : ℂ :=
  let mq : ℚ := gridCoord ((xdim : ℚ) / 2) i
  let nq : ℚ := gridCoord ((ydim : ℚ) / 2) j
  let d := ds.getD t 0
  let root : ℝ := Real.sqrt (((d ^ 2 + (mq * dx) ^ 2 + (nq * dy) ^ 2 : ℚ)) : ℝ)
  Complex.I / (wavelen : ℂ)
    * Complex.exp (-Complex.I * (wavevec : ℂ) * (root : ℂ)) / (root : ℂ)

lemma phase_sqrt_arg_zero (w di : ℚ) : phase w di 0 = 1 := by
  simp [phase]

lemma phase_dist_zero (w r : ℚ) : phase w 0 r = 1 := by
  simp [phase]

lemma masked_root_nonneg (r0 : ℚ) : (0 : ℚ) ≤ if 0 ≤ r0 then r0 else 0 := by
  split <;> simp_all

/-- Claim C1: at every frequency-grid cell where the pre-mask
`root = 1 - (wavelen*n/(Nx*dx))^2 - (wavelen*m/(Ny*dy))^2` is strictly
negative, the kernel returned by `trans_func` is claimed to be exactly 0.
The code violates this: line 203 (`root *= (root >= 0)`) overwrites `root`
in place, so the re-mask of line 218 (`g = g*(root>=0)`) tests the already
masked, hence nonnegative, value and is a no-op; at an evanescent cell the
kernel entry is `exp(0) = 1`, contradicting the adjacent source comment
"set the transfer function to zero where the sqrt is imaginary".
Concretely, for shape (2,2), spacing (1,1), wavelength 4, distance 1, the
grid cell `(i, j) = (0, 1)` (offsets `m = -1`, `n = 0`) has `root = -3 < 0`
yet the kernel value is 1, not 0. -/
theorem trans_func_evanescent_cell_is_one :
    trans_func_root 2 2 1 1 4 [1] 0 0 1 < 0 ∧
      trans_func_val 2 2 1 1 4 [1] 0 0 0 1 0 = 1 := by
  have hr : trans_func_root 2 2 1 1 4 [1] 0 0 1 = -3 := by
    norm_num [trans_func_root, gridRoot, gridCoord, halfWidth, qmax,
      supportOverflow, cascadeDistances, ratTrunc]
  refine ⟨by rw [hr]; norm_num, ?_⟩
  simp only [trans_func_val]
  rw [hr]
  norm_num [cascadeDistances, phase_sqrt_arg_zero]

/-- Claim C2: `apply_trans_func` is claimed to zero every element strictly
outside the centered kernel support window, in particular for non-square
spectra.  The code violates this: the border-zeroing slices of lines 111-114
swap the two axes (axis 0 is zeroed with the axis-1 bounds `n/2∓nn`, axis 1
with the axis-0 bounds `m/2∓mm`), so for a non-square spectrum values outside
the support survive (and values inside the support are wrongly zeroed),
contradicting the adjacent source comment that values outside the transfer
function must be set to zero.  Concretely, for a spectrum of spatial shape
(4, 8) and a kernel of spatial shape (2, 2), the support window is
rows `[1, 3) ×` cols `[3, 5)`; the element at `(3, 6)` is strictly outside it,
yet on an all-ones spectrum and all-ones kernel the returned value there is 1,
not 0. -/
theorem apply_trans_func_outside_support_nonzero :
    ¬ (ratTrunc ((4 : ℚ) / 2 - (2 : ℚ) / 2) ≤ (3 : ℤ)
        ∧ (3 : ℤ) < ratTrunc ((4 : ℚ) / 2 + (2 : ℚ) / 2)) ∧
      apply_trans_func 4 8 2 2 (fun _ _ _ => 1) (fun _ _ _ => 1) 3 6 0 = 1 := by
  constructor
  · norm_num [ratTrunc]
  · norm_num [apply_trans_func, ratTrunc]

/-- Claim C3, counterexample to the claim as stated: the support half-widths
are computed from the distances after the division `d = d/cfsp` (line 174
precedes lines 187-188), so the cascaded kernel is sized for `d/C`, not `d`.
For shape 8, spacing 1, wavelength 1, distance 16 and cascade factor 2 the
cascaded kernel has spatial size 8 while the plain kernel at distance 16 has
spatial size 6, so the two arrays cannot be elementwise equal. -/
theorem trans_func_cascade_shape_mismatch :
    trans_func_K 8 1 1 [16] 2 = 8 ∧ trans_func_K 8 1 1 [16] 0 = 6 ∧
      trans_func_K 8 1 1 [16] 2 ≠ trans_func_K 8 1 1 [16] 0 := by
  refine ⟨?_, ?_, ?_⟩ <;>
    norm_num [trans_func_K, gridCount, halfWidth, qmax, supportOverflow,
      cascadeDistances, ratTrunc] <;> decide

/-- Claim C3 (amended): the cascaded kernel `trans_func(..., d, cfsp=C)` is
elementwise the kernel computed at distance `d/C` with `cfsp=0`, raised to the
`C`-th power — and the two have identical spatial shapes, since the support is
sized at `d/C` in both.  (Equality with the kernel built at `d` itself only
holds when the support sizes at `d` and `d/C` happen to agree.) -/
theorem trans_func_cascade_pow (xdim ydim : ℤ) (dx dy wavelen : ℚ) (d : ℚ)
    (C : ℤ) (gf : ℚ) (hC : 0 < C) (i j t : ℕ) :
    trans_func_val xdim ydim dx dy wavelen [d] C gf i j t
        = (trans_func_val xdim ydim dx dy wavelen [d / (C : ℚ)] 0 gf i j t)
          ^ C.natAbs ∧
      trans_func_K xdim dx wavelen [d] C
        = trans_func_K xdim dx wavelen [d / (C : ℚ)] 0 ∧
      trans_func_K ydim dy wavelen [d] C
        = trans_func_K ydim dy wavelen [d / (C : ℚ)] 0 := by
  have h1 : cascadeDistances [d] C = [d / (C : ℚ)] := by
    simp [cascadeDistances, hC]
  have h2 : cascadeDistances [d / (C : ℚ)] 0 = [d / (C : ℚ)] := by
    simp [cascadeDistances]
  refine ⟨?_, ?_, ?_⟩
  · simp only [trans_func_val, trans_func_root, h1, h2, if_pos hC,
      lt_irrefl (0 : ℤ), if_false]
  · simp only [trans_func_K, h1, h2]
  · simp only [trans_func_K, h1, h2]

/-- Witness for `trans_func_cascade_pow` at shape (8,8), spacing (1,1),
wavelength 1, distance 16, cascade factor 2, grid cell (0,0). -/
theorem trans_func_cascade_pow_witness :
    trans_func_val 8 8 1 1 1 [16] 2 0 0 0 0
      = (trans_func_val 8 8 1 1 1 [(16 : ℚ) / ((2 : ℤ) : ℚ)] 0 0 0 0 0)
        ^ (2 : ℤ).natAbs :=
  (trans_func_cascade_pow 8 8 1 1 1 16 2 0 (by norm_num) 0 0 0).1

/-- Claim C4, counterexample to the claim as stated: the gradient-filtered
kernel is evaluated on the grid sized for `|d|` only, while a separate build
at `d + g` is sized for `|d + g|`.  For shape 8, spacing 1, wavelength 1 the
kernel at distance 16 has spatial size 6 but the kernel at distance 32 has
spatial size 4, so with `d = 16`, `g = 16` the difference
`build(d) − build(d+g)` is not even shape-compatible, and the claimed
elementwise identity fails. -/
theorem trans_func_gradient_shape_mismatch :
    trans_func_K 8 1 1 [16] 0 = 6 ∧ trans_func_K 8 1 1 [32] 0 = 4 ∧
      trans_func_K 8 1 1 [16] 0 ≠ trans_func_K 8 1 1 [32] 0 := by
  refine ⟨?_, ?_, ?_⟩ <;>
    norm_num [trans_func_K, gridCount, halfWidth, qmax, supportOverflow,
      cascadeDistances, ratTrunc] <;> decide

/-- Claim C4 (amended): whenever the computed support half-widths at `d` and
at `d + g` coincide (so the two plain kernels have the same grid), the kernel
built with `gradient_filter = g ≠ 0` equals, elementwise on its grid, the
difference of the plain kernel at `d` and the plain kernel at `d + g`.
Without that agreement the two plain kernels have different shapes and the
claimed identity is not even well-formed. -/
theorem trans_func_gradient_diff (xdim ydim : ℤ) (dx dy wavelen : ℚ)
    (d g : ℚ) (hg : g ≠ 0)
    (hMx : halfWidth xdim dx wavelen [d] = halfWidth xdim dx wavelen [d + g])
    (hMy : halfWidth ydim dy wavelen [d] = halfWidth ydim dy wavelen [d + g])
    (i j : ℕ) :
    trans_func_val xdim ydim dx dy wavelen [d] 0 g i j 0
      = trans_func_val xdim ydim dx dy wavelen [d] 0 0 i j 0
        - trans_func_val xdim ydim dx dy wavelen [d + g] 0 0 i j 0 := by
  have had : cascadeDistances [d] 0 = [d] := by simp [cascadeDistances]
  have hag : cascadeDistances [d + g] 0 = [d + g] := by simp [cascadeDistances]
  simp only [trans_func_val, trans_func_root, had, hag, ← hMx, ← hMy,
    List.getD_cons_zero, if_neg hg, lt_irrefl (0 : ℤ), if_false,
    eq_self_iff_true, if_true]
  rw [sub_mul]

/-- Witness for `trans_func_gradient_diff` at shape (4,4), spacing (1,1),
wavelength 1, distance 2, gradient offset 1, grid cell (0,0): the half-widths
at distances 2 and 3 both clamp to 2, so the hypothesis holds. -/
theorem trans_func_gradient_diff_witness :
    trans_func_val 4 4 1 1 1 [2] 0 1 0 0 0
      = trans_func_val 4 4 1 1 1 [2] 0 0 0 0 0
        - trans_func_val 4 4 1 1 1 [2 + 1] 0 0 0 0 0 :=
  trans_func_gradient_diff 4 4 1 1 1 2 1 (by norm_num)
    (by norm_num [halfWidth, qmax, supportOverflow, ratTrunc])
    (by norm_num [halfWidth, qmax, supportOverflow, ratTrunc]) 0 0

lemma min_clamp_int (dim : ℤ) (h : ℚ)
    (hint : (∃ k : ℤ, h = (k : ℚ)) ∨ h = (dim : ℚ) / 2) :
    ∃ z : ℤ, 2 * (min (dim : ℚ) (h * 2) / 2) = (z : ℚ) ∧ z ≤ dim
      ∧ (Even dim → Even z) := by
  rcases hint with ⟨k, rfl⟩ | rfl
  · refine ⟨min dim (2 * k), ?_, min_le_left _ _, fun hd => ?_⟩
    · rw [Int.cast_min]
      push_cast
      ring_nf
    · rcases min_choice dim (2 * k) with h | h <;> rw [h]
      · exact hd
      · exact ⟨k, two_mul k⟩
  · refine ⟨dim, ?_, le_refl _, fun hd => hd⟩
    have h2 : ((dim : ℚ) / 2) * 2 = (dim : ℚ) := by ring
    rw [h2, min_self]
    ring

lemma halfWidth_twice_int (dim : ℤ) (sp w : ℚ) (ds : List ℚ) :
    ∃ z : ℤ, 2 * halfWidth dim sp w ds = (z : ℚ) ∧ z ≤ dim
      ∧ (Even dim → Even z) := by
  unfold halfWidth
  split
  · exact min_clamp_int dim _ (Or.inr rfl)
  · exact min_clamp_int dim _ (Or.inl ⟨_, rfl⟩)

/-- Claim C6 (amended): for every nonnegative image dimension, the spatial
size of the kernel built by `trans_func` never exceeds the image dimension,
and it is even whenever the image dimension is even.  For an odd image
dimension the clamp `min(dim, max*2)/2` can produce an odd kernel size (equal
to the image dimension), so evenness does not hold unconditionally. -/
theorem trans_func_K_le_dim_and_even (dim : ℤ) (sp w : ℚ) (ds : List ℚ)
    (cfsp : ℤ) (hdim : 0 ≤ dim) :
    (trans_func_K dim sp w ds cfsp : ℤ) ≤ dim
      ∧ (Even dim → Even (trans_func_K dim sp w ds cfsp)) := by
  obtain ⟨z, hz, hle, hev⟩ :=
    halfWidth_twice_int dim sp w (cascadeDistances ds cfsp)
  unfold trans_func_K gridCount
  rw [hz, Int.ceil_intCast]
  constructor
  · rcases le_or_lt z 0 with h | h
    · rw [Int.toNat_of_nonpos h]; exact_mod_cast hdim
    · rw [Int.toNat_of_nonneg h.le]; exact hle
  · intro hd
    obtain ⟨c, hc⟩ := hev hd
    rcases le_or_lt z 0 with h | h
    · rw [Int.toNat_of_nonpos h]; exact even_zero
    · have hc0 : 0 ≤ c := by omega
      refine ⟨c.toNat, ?_⟩
      rw [hc, Int.toNat_add hc0 hc0]

/-- Claim C6, counterexample to unconditional evenness: for the odd image
dimension 3 with spacing 1, wavelength 1 and distance 1/10, the support bound
is large, the clamp takes `min(3, 92)/2 = 3/2`, and the resulting kernel
spatial size is 3 — odd. -/
theorem trans_func_K_odd_for_odd_dim :
    trans_func_K 3 1 1 [1 / 10] 0 = 3 ∧ ¬ Even (trans_func_K 3 1 1 [1 / 10] 0) := by
  have habs : |(1 : ℚ) / 10| = 1 / 10 := by norm_num
  have hw : halfWidth 3 1 1 [1 / 10] = 3 / 2 := by
    norm_num [halfWidth, qmax, supportOverflow, ratTrunc, habs]
  have h : trans_func_K 3 1 1 [1 / 10] 0 = 3 := by
    norm_num [trans_func_K, gridCount, cascadeDistances, hw]
    decide
  exact ⟨h, by rw [h]; decide⟩

/-- Witness for `trans_func_K_le_dim_and_even` at dimension 4, spacing 1,
wavelength 1, distance 1. -/
theorem trans_func_K_le_dim_and_even_witness :
    (trans_func_K 4 1 1 [1] 0 : ℤ) ≤ 4
      ∧ (Even (4 : ℤ) → Even (trans_func_K 4 1 1 [1] 0)) :=
  trans_func_K_le_dim_and_even 4 1 1 [1] 0 (by norm_num)

lemma getD_zero_list (t : ℕ) : ([0] : List ℚ).getD t 0 = 0 := by
  cases t <;> simp

lemma supportOverflow_zero_dist (w : ℚ) : supportOverflow w [0] :=
  Or.inr ⟨0, by simp⟩

/-- At distance 0 the support computation overflows, the fallback takes half
the image size, and the clamp leaves exactly the image size. -/
lemma trans_func_K_zero_dist (dim : ℤ) (sp w : ℚ) :
    trans_func_K dim sp w [0] 0 = dim.toNat := by
  unfold trans_func_K gridCount halfWidth
  have hc : cascadeDistances [0] 0 = [0] := by simp [cascadeDistances]
  rw [hc, if_pos (supportOverflow_zero_dist w)]
  have h2 : ((dim : ℚ) / 2) * 2 = (dim : ℚ) := by ring
  have h3 : 2 * ((dim : ℚ) / 2) = (dim : ℚ) := by ring
  simp only [h2, min_self, h3, Int.ceil_intCast]

/-- At distance 0 (no cascade, no gradient filter) every kernel entry is
`exp(0) = 1`. -/
lemma trans_func_val_zero_dist (xdim ydim : ℤ) (dx dy w : ℚ) (i j t : ℕ) :
    trans_func_val xdim ydim dx dy w [0] 0 0 i j t = 1 := by
  have hc : cascadeDistances [0] 0 = [0] := by simp [cascadeDistances]
  simp only [trans_func_val, hc, getD_zero_list, phase_dist_zero,
    eq_self_iff_true, if_true, lt_irrefl (0 : ℤ), if_false,
    if_pos (masked_root_nonneg _), one_mul]

/-- Claim C7, counterexample: `trans_func` contains no input validation at
all; with the invalid wavelength −1 (shape (2,2), spacing (1,1), distance 1)
the call does not fail — the support bound computes to −1, the clamp to −1,
and an empty kernel (spatial size 0) is returned instead of an
`InvalidParameter` failure. -/
theorem trans_func_invalid_wavelen_empty_kernel :
    trans_func_K 2 1 (-1) [1] 0 = 0 := by
  have hceil : ⌈(-2 : ℚ)⌉ = -2 := by
    rw [show (-2 : ℚ) = (((-2 : ℤ)) : ℚ) by norm_num, Int.ceil_intCast]
  have hw : halfWidth 2 1 (-1) [1] = -1 := by
    norm_num [halfWidth, qmax, supportOverflow, ratTrunc, hceil]
  norm_num [trans_func_K, gridCount, cascadeDistances, hw, hceil]

/-- Claim C7 (amended): `trans_func` performs no validation and never signals
`InvalidParameter`; for any inputs, including non-positive wavelength, it
returns an ordinary (possibly empty or physically meaningless) kernel.  With
wavelength −1, shape (2,2), spacing (1,1) and distance 0 it returns a full
2×2 kernel of ones. -/
theorem trans_func_no_validation :
    trans_func_K 2 1 (-1) [0] 0 = 2
      ∧ ∀ i j t : ℕ, trans_func_val 2 2 1 1 (-1) [0] 0 0 i j t = 1 := by
  constructor
  · rw [trans_func_K_zero_dist 2 1 (-1)]
    rfl
  · intro i j t
    exact trans_func_val_zero_dist 2 2 1 1 (-1) i j t

lemma ratTrunc_zero : ratTrunc 0 = 0 := by
  simp [ratTrunc]

lemma ratTrunc_natCast (m : ℕ) : ratTrunc ((m : ℕ) : ℚ) = m := by
  simp [ratTrunc, Int.floor_natCast]

/-- When the kernel's spatial shape equals the spectrum's and every kernel
entry is 1, `apply_trans_func` leaves the spectrum unchanged: the overlap
region is the whole array multiplied by 1 and all four border slices are
empty. -/
lemma apply_trans_func_full_ones (m n : ℕ) (ft G : ℕ → ℕ → ℕ → ℂ)
    (hG : ∀ a b t, G a b t = 1) (i j t : ℕ) :
    apply_trans_func m n m n ft G i j t = ft i j t := by
  unfold apply_trans_func
  simp only [sub_self, add_halves, ratTrunc_zero, ratTrunc_natCast, hG,
    mul_one, ite_self]
  rw [if_neg]
  omega

/-- Claim C5: propagating a field with even spatial dimensions to distance 0
reproduces the field exactly: at `d = 0` the support-size computation
overflows, the fallback makes the kernel cover the whole image, every kernel
entry is `exp(0) = 1`, `apply_trans_func` is the identity, and the inverse
transform undoes the forward transform (the FFT pair is the external
collaborator, constrained by its spec contract `ifft ∘ fft = id`). -/
theorem propagate_zero_dist (fft ifft : (ℕ → ℕ → ℂ) → ℕ → ℕ → ℂ)
    (m n : ℕ) (field : ℕ → ℕ → ℂ) (dx dy w : ℚ)
    (_hm : Even m) (_hn : Even n) (_hdx : 0 < dx) (_hdy : 0 < dy)
    (_hw : 0 < w) (hinv : ∀ f, ifft (fft f) = f) (i j : ℕ) :
    propagate_val fft ifft m n field dx dy w [0] 0 i j 0 = field i j := by
  simp only [propagate_val]
  have happ : (fun a b => apply_trans_func m n
      (trans_func_K (m : ℤ) dx w [0] 0) (trans_func_K (n : ℤ) dy w [0] 0)
      (fun a b _ => fft field a b)
      (trans_func_val (m : ℤ) (n : ℤ) dx dy w [0] 0 0) a b 0)
      = fft field := by
    funext a b
    rw [trans_func_K_zero_dist (m : ℤ) dx w, Int.toNat_natCast,
      trans_func_K_zero_dist (n : ℤ) dy w, Int.toNat_natCast]
    exact apply_trans_func_full_ones m n _ _
      (fun a b t => trans_func_val_zero_dist (m : ℤ) (n : ℤ) dx dy w a b t)
      a b 0
  rw [happ, hinv field]

/-- Witness for `propagate_zero_dist`: a 2×2 constant field with identity
transforms. -/
theorem propagate_zero_dist_witness :
    propagate_val (fun f => f) (fun f => f) 2 2 (fun _ _ => 7) 1 1 1 [0] 0
      0 0 0 = 7 :=
  propagate_zero_dist (fun f => f) (fun f => f) 2 2 (fun _ _ => 7) 1 1 1
    ⟨1, rfl⟩ ⟨1, rfl⟩ (by norm_num) (by norm_num) (by norm_num)
    (fun _ => rfl) 0 0

/-- Claim C8: for two or more distances, `propagate` packages the 3-D result
as a uniformly spaced `Grid` with third-axis spacing `dd[0]` exactly when all
consecutive differences of the input distances are `np.allclose` to the first
one, and otherwise as an `UnevenGrid` whose third-axis coordinates are the
literal input distance list. -/
theorem propagate_positions_packaging (s0 s1 : ℚ) (ds : List ℚ)
    (_h : 2 ≤ ds.length) :
    (np_allclose ((np_diff ds).headD 0) (np_diff ds) →
        propagate_positions s0 s1 ds
          = .grid s0 s1 ((np_diff ds).headD 0))
      ∧ (¬ np_allclose ((np_diff ds).headD 0) (np_diff ds) →
        propagate_positions s0 s1 ds = .uneven s0 s1 ds) := by
  constructor <;> intro h
  · simp only [propagate_positions]
    rw [if_pos h]
  · simp only [propagate_positions]
    rw [if_neg h]

/-- Witness for `propagate_positions_packaging`: distances `[1, 2, 3]` give a
uniform grid with spacing 1; distances `[1, 2, 5]` give an uneven grid
recording `[1, 2, 5]`. -/
theorem propagate_positions_packaging_witness :
    propagate_positions 1 1 [1, 2, 3] = .grid 1 1 1
      ∧ propagate_positions 1 1 [1, 2, 5] = .uneven 1 1 [1, 2, 5] := by
  constructor
  · have h := (propagate_positions_packaging 1 1 [1, 2, 3] (by norm_num)).1
      (by norm_num [np_allclose, np_diff])
    norm_num [np_diff] at h
    exact h
  · exact (propagate_positions_packaging 1 1 [1, 2, 5] (by norm_num)).2
      (by norm_num [np_allclose, np_diff])

/-- Claim C9: for even shape dimensions, positive wavelength and spacing and
a nonzero distance, the impulse-response kernel at integer pixel offset
`(m, n)` from the image center — stored at array index
`(m + Nx/2, n + Ny/2)` — is
`(i/wavelen) * exp(-i*wavevec*root) / root` with
`root = sqrt(d^2 + (m*dx)^2 + (n*dy)^2)`. -/
theorem impulse_response_formula (Nx Ny : ℕ) (hNx : Even Nx) (hNy : Even Ny)
    (dx dy w k : ℚ) (_hdx : 0 < dx) (_hdy : 0 < dy) (_hw : 0 < w)
    (d : ℚ) (_hd : d ≠ 0) (m n : ℤ)
    (hm1 : -((Nx : ℤ) / 2) ≤ m) (_hm2 : m < (Nx : ℤ) / 2)
    (hn1 : -((Ny : ℤ) / 2) ≤ n) (_hn2 : n < (Ny : ℤ) / 2) :
    impulse_response (Nx : ℤ) (Ny : ℤ) dx dy w k [d]
        (m + (Nx : ℤ) / 2).toNat (n + (Ny : ℤ) / 2).toNat 0
      = Complex.I / (w : ℂ)
        * Complex.exp (-Complex.I * (k : ℂ)
            * ((Real.sqrt (((d ^ 2 + ((m : ℚ) * dx) ^ 2
                + ((n : ℚ) * dy) ^ 2 : ℚ)) : ℝ) : ℝ) : ℂ))
        / ((Real.sqrt (((d ^ 2 + ((m : ℚ) * dx) ^ 2
            + ((n : ℚ) * dy) ^ 2 : ℚ)) : ℝ) : ℝ) : ℂ) := by
  obtain ⟨c, hc⟩ := hNx
  obtain ⟨e, he⟩ := hNy
  have hNx2 : ((Nx : ℕ) : ℤ) / 2 = (c : ℤ) := by omega
  have hNy2 : ((Ny : ℕ) : ℤ) / 2 = (e : ℤ) := by omega
  have hmq : gridCoord (((Nx : ℕ) : ℚ) / 2) (m + ((Nx : ℕ) : ℤ) / 2).toNat
      = (m : ℚ) := by
    rw [hNx2]
    unfold gridCoord
    have h0 : 0 ≤ m + (c : ℤ) := by omega
    have h1 : (((m + (c : ℤ)).toNat : ℕ) : ℚ) = ((m + (c : ℤ) : ℤ) : ℚ) := by
      rw [← Int.cast_natCast, Int.toNat_of_nonneg h0]
    rw [h1]
    have h2 : ((Nx : ℕ) : ℚ) = 2 * (c : ℚ) := by
      rw [hc]; push_cast; ring
    rw [h2]
    push_cast
    ring
  have hnq : gridCoord (((Ny : ℕ) : ℚ) / 2) (n + ((Ny : ℕ) : ℤ) / 2).toNat
      = (n : ℚ) := by
    rw [hNy2]
    unfold gridCoord
    have h0 : 0 ≤ n + (e : ℤ) := by omega
    have h1 : (((n + (e : ℤ)).toNat : ℕ) : ℚ) = ((n + (e : ℤ) : ℤ) : ℚ) := by
      rw [← Int.cast_natCast, Int.toNat_of_nonneg h0]
    rw [h1]
    have h2 : ((Ny : ℕ) : ℚ) = 2 * (e : ℚ) := by
      rw [he]; push_cast; ring
    rw [h2]
    push_cast
    ring
  simp only [impulse_response, List.getD_cons_zero, Int.cast_natCast,
    hmq, hnq]

/-- Witness for `impulse_response_formula`: shape (2,2), unit spacing,
wavelength, wavevector and distance, at the center offset `(0, 0)` (array
index `(1, 1)`), where `root = 1` and the value is `i·exp(-i)`. -/
theorem impulse_response_formula_witness :
    impulse_response 2 2 1 1 1 1 [1] 1 1 0
      = Complex.I * Complex.exp (-Complex.I) := by
  have h := impulse_response_formula 2 2 ⟨1, rfl⟩ ⟨1, rfl⟩ 1 1 1 1
    (by norm_num) (by norm_num) (by norm_num) 1 (by norm_num) 0 0
    (by norm_num) (by norm_num) (by norm_num) (by norm_num)
  norm_num [Real.sqrt_one] at h
  exact h

end Holopy
